import Mathlib

/-!
# Migrator: the migration orchestrator of `pkg/migrate/migrate.go`

A shallow embedding of `copyKubeConfig`, `runBackup`, `runRestore` and `Run`.
The operating system and the velero engines are the environment: every call
into them takes its outcome from an explicit record of outcomes, and every
observable step is appended to a list of events, in program order.
-/

namespace Migrator

/-! ## Fixed policy lists (migrate.go, lines 21-44) -/

/-- The variable `nonRestorableResources`. -/
def nonRestorableResources : List String :=
  ["nodes",
   "events",
   "events.events.k8s.io"]

/-- The variable `defaultRestorePriorities`. -/
def defaultRestorePriorities : List String :=
  ["customresourcedefinitions",
   "namespaces",
   "storageclasses",
   "volumesnapshotclass.snapshot.storage.k8s.io",
   "volumesnapshotcontents.snapshot.storage.k8s.io",
   "volumesnapshots.snapshot.storage.k8s.io",
   "persistentvolumes",
   "persistentvolumeclaims",
   "secrets",
   "configmaps",
   "serviceaccounts",
   "limitranges",
   "pods",
   "replicasets.apps",
   "clusters.cluster.x-k8s.io",
   "clusterresourcesets.addons.cluster.x-k8s.io"]

/-! ## The filesystem -/

/-- File contents, one number per byte. -/
abbrev Bytes := List Nat

/-- What a path names: a regular file with its contents, or a directory. -/
inductive Node where
  | file (data : Bytes)
  | dir
  deriving DecidableEq

/-- A filesystem: what each path names, if anything. Paths are compared as
strings, so two different strings name two different files (no links). -/
abbrev FS := String → Option Node

/-- The filesystem with path `p` rebound to `n`. -/
def FS.set (fs : FS) (p : String) (n : Option Node) : FS :=
  fun q => if q = p then n else fs q

/-- A Go `error` value, identified by a message. -/
abbrev GoError := String

/-- The operating-system faults that can hit one call of `copyKubeConfig`:
each flag makes the named call fail although the filesystem state alone would
let it succeed (permissions, descriptor limits, a full disk, ...). -/
structure CopyFaults where
  /-- The call `os.Open(from)` fails. -/
  openFails : Bool
  /-- The call of `os.MkdirAll` fails (the code ignores its result). -/
  mkdirFails : Bool
  /-- The call `os.Remove(to)` fails. -/
  removeFails : Bool
  /-- The call `os.Create(to)` fails. -/
  createFails : Bool
  /-- The call of `io.Copy` fails after writing this many bytes. -/
  copyFailsAt : Option Nat
  deriving DecidableEq

/-- No operating-system fault at all. -/
def CopyFaults.none : CopyFaults :=
  { openFails := false, mkdirFails := false, removeFails := false,
    createFails := false, copyFailsAt := Option.none }

/-- The call of `copyKubeConfig` whose error is returned. -/
inductive CopyError where
  | openSource
  | removeTarget
  | createTarget
  | copyData
  deriving DecidableEq

/-- The `error` value behind a `CopyError`. -/
def CopyError.toGoError : CopyError → GoError
  | .openSource => "open"
  | .removeTarget => "remove"
  | .createTarget => "create"
  | .copyData => "copy"

/-- The call `os.Open(p)`: the open handle, which keeps reading the node that `p`
named when it was opened, also after `p` is removed. -/
def osOpen (fails : Bool) (fs : FS) (p : String) : Option Node :=
  if fails then none else fs p

/-- The call `os.Stat(p)` returns a nil error: the path exists. A path that
does not exist gives the error that `os.IsNotExist` recognises. -/
def osStat (fs : FS) (p : String) : Bool :=
  (fs p).isSome

/-- The call `os.MkdirAll(p, 0755)`; the caller ignores the error. -/
def osMkdirAll (fails : Bool) (fs : FS) (p : String) : FS :=
  if fails then fs else
    match fs p with
    | Option.none => fs.set p (some Node.dir)
    | some _ => fs

/-- The call `os.Remove(p)`: `none` is an error. -/
def osRemove (fails : Bool) (fs : FS) (p : String) : Option FS :=
  if fails then none else
    match fs p with
    | Option.none => none
    | some _ => some (fs.set p Option.none)

/-- The call `os.Create(p)`: it creates or truncates the regular file `p`, whose parent
`parent` has to be a directory; `none` is an error. -/
def osCreate (fails : Bool) (fs : FS) (parent p : String) : Option FS :=
  if fails then none else
    match fs parent, fs p with
    | some Node.dir, some Node.dir => none
    | some Node.dir, _ => some (fs.set p (some (Node.file [])))
    | _, _ => none

/-- The call `io.Copy(toFile, fromFile)` into the freshly created (empty) file `p`:
the error, if any, and the filesystem with what was written before it.
Reading from a directory is an error; a fault breaks the copy off after the
given number of bytes. -/
def ioCopy (failsAt : Option Nat) (fs : FS) (p : String) (fromFile : Node) :
    Option CopyError × FS :=
  match fromFile with
  | Node.dir => (some CopyError.copyData, fs)
  | Node.file data =>
    match failsAt with
    | some n => (some CopyError.copyData, fs.set p (some (Node.file (data.take n))))
    | Option.none => (Option.none, fs.set p (some (Node.file data)))

/-- The function `copyKubeConfig(from, to)` (migrate.go, lines 185-206).
`pathDir` is Go's `path.Dir`. The result is the returned error, if any, and
the filesystem the call leaves behind. -/
def copyKubeConfig (pathDir : String → String) (flt : CopyFaults) (fs : FS)
    (src dst : String) : Option CopyError × FS :=
  match osOpen flt.openFails fs src with
  | Option.none => (some CopyError.openSource, fs)
  | some fromFile =>
    let fs1 := if osStat fs (pathDir dst) = false
      then osMkdirAll flt.mkdirFails fs (pathDir dst) else fs
    let removed := if osStat fs1 dst then osRemove flt.removeFails fs1 dst else some fs1
    match removed with
    | Option.none => (some CopyError.removeTarget, fs1)
    | some fs2 =>
      match osCreate flt.createFails fs2 (pathDir dst) dst with
      | Option.none => (some CopyError.createTarget, fs2)
      | some fs3 => ioCopy flt.copyFailsAt fs3 dst fromFile

/-- Go's `path.Dir` on a clean path: what precedes the last slash, `/` for a
path directly under the root, `.` for a path without a slash. -/
def pathDirClean (p : String) : String :=
  match (p.data.reverse.dropWhile (fun c => c != '/')).reverse with
  | [] => "."
  | [_] => "/"
  | cs => String.mk cs.dropLast

/-! ## The velero objects the orchestrator builds

The types and the builder are velero's (`pkg/apis/velero/v1`, `pkg/builder`,
`pkg/restore`), a library the repository imports. Each builder method stores
its argument in the field it names, which is also how the specification
reads the two calls (4.3, step 4, and 4.4, steps 5 to 7). -/

/-- The fields of `velerov1api.Backup` that the backup builder sets. -/
structure Backup where
  ns : String
  name : String
  includedNamespaces : List String
  excludedResources : List String
  defaultVolumesToRestic : Option Bool
  deriving DecidableEq

/-- The fields of `velerov1api.Restore` that the restore builder sets. -/
structure Restore where
  ns : String
  name : String
  excludedResources : List String
  backupName : String
  restorePVs : Option Bool
  deriving DecidableEq

/-- The type `restore.Result`: messages about velero itself (plugins), about
cluster-scoped resources, and per namespace (a Go map, here its entries). -/
structure Result where
  velero : List String
  cluster : List String
  namespaces : List (String × List String)
  deriving DecidableEq

/-- The type `restore.Request`, without its logger; the reader is the file
it reads from. -/
structure RestoreRequest where
  restore : Restore
  backup : Backup
  backupReader : String
  deriving DecidableEq

/-- The call `builder.ForBackup(ns, name)`: a backup with this namespace and name and
nothing else set. -/
def builder.ForBackup (ns name : String) : Backup :=
  { ns := ns, name := name, includedNamespaces := [], excludedResources := [],
    defaultVolumesToRestic := none }

/-- The method `IncludedNamespaces(namespaces...)` sets the included namespaces. -/
def Backup.IncludedNamespaces (b : Backup) (namespaces : List String) : Backup :=
  { b with includedNamespaces := namespaces }

/-- The method `ExcludedResources(resources...)` sets the excluded resources. -/
def Backup.ExcludedResources (b : Backup) (resources : List String) : Backup :=
  { b with excludedResources := resources }

/-- The method `DefaultVolumesToRestic(val)` sets the flag. -/
def Backup.DefaultVolumesToRestic (b : Backup) (val : Bool) : Backup :=
  { b with defaultVolumesToRestic := some val }

/-- The method `Result()` hands out the built object. -/
def Backup.Result (b : Backup) : Backup := b

/-- The call `builder.ForRestore(ns, name)`: a restore with this namespace and name and
nothing else set. -/
def builder.ForRestore (ns name : String) : Restore :=
  { ns := ns, name := name, excludedResources := [], backupName := "", restorePVs := none }

/-- The method `ExcludedResources(resources...)` appends to the excluded resources. -/
def Restore.ExcludedResources (r : Restore) (resources : List String) : Restore :=
  { r with excludedResources := r.excludedResources ++ resources }

/-- The method `Backup(name)` sets the name of the backup to restore from. -/
def Restore.Backup (r : Restore) (name : String) : Restore :=
  { r with backupName := name }

/-- The method `RestorePVs(val)` sets the flag. -/
def Restore.RestorePVs (r : Restore) (val : Bool) : Restore :=
  { r with restorePVs := some val }

/-- The method `Result()` hands out the built object. -/
def Restore.Result (r : Restore) : Restore := r

/-! ## Events -/

/-- Log levels of the logger. -/
inductive Level where
  | info
  | warning
  | error
  deriving DecidableEq

/-- What the program does that can be seen from outside, one event per step. -/
inductive Event where
  /-- The call `ioutil.TempFile(dir, pattern)` created and opened the file `name`. -/
  | tempFile (dir pattern name : String)
  /-- A call of `logger.Info`, `Error`, `Infof` or `Errorf`: format, arguments, attached error. -/
  | log (level : Level) (format : String) (args : List String) (err : Option GoError)
  /-- The call `logger.Warning(result)` or `logger.Error(result)`. -/
  | logResult (level : Level) (result : Result)
  /-- The call `copyKubeConfig(src, dst)` returned `err`. -/
  | copyKubeConfig (src dst : String) (err : Option CopyError)
  /-- The function `runBackup` is entered, writing to `backupFile`. -/
  | runBackupCall (kubeConfig plugins backupFile : String) (namespaces : List String)
  /-- The function `runBackup` returned, with a nil error or not. -/
  | runBackupRet (ok : Bool)
  /-- The call `client.NewFactory(baseName, kubeConfig)`. -/
  | newFactory (baseName kubeConfig : String)
  /-- The calls `clientmgmt.NewRegistry(plugins, ...)` and `DiscoverPlugins()`. -/
  | discoverPlugins (plugins : String)
  /-- The deferred `pluginManager.CleanupClients()`. -/
  | cleanupClients
  /-- The call `k8sBackupper.Backup(...)` with these parameters, writing to the file. -/
  | backup (params : Backup) (backupFile : String)
  /-- The call `backupFile.Seek(offset, whence)` returned `err`. -/
  | seek (file : String) (offset whence : Int) (err : Option GoError)
  /-- The function `runRestore` is entered, reading from `backupFile`. -/
  | runRestoreCall (kubeConfig plugins backupFile : String) (backup : Backup)
  /-- The function `runRestore` returned, with a nil error or not. -/
  | runRestoreRet (ok : Bool)
  /-- The call `restore.NewKubernetesRestorer(...)` with these resource priorities. -/
  | newKubernetesRestorer (priorities : List String)
  /-- The call `k8sRestorer.Restore(restoreReq, ...)`, reading the request's file. -/
  | restore (req : RestoreRequest)
  /-- The call `os.Remove(name)`. -/
  | remove (name : String)
  /-- The deferred `backupFile.Close()`. -/
  | close (name : String)
  deriving DecidableEq

/-! ## The two phases -/

/-- The outcomes of the calls `runBackup` makes into the client factory, the
plugin manager and the backup engine: `none` is a nil error. -/
structure BackupEnv where
  kubeClient : Option GoError
  client : Option GoError
  dynamicClient : Option GoError
  clientConfig : Option GoError
  discoverPlugins : Option GoError
  getBackupItemActions : Option GoError
  newHelper : Option GoError
  newKubernetesBackupper : Option GoError
  /-- The bytes `Backup` writes to its writer before it returns. -/
  backupOutput : Bytes
  backup : Option GoError
  deriving DecidableEq

/-- The outcomes of the calls `runRestore` makes; `Restore` has no error
result, it returns the warnings and the errors. -/
structure RestoreEnv where
  kubeClient : Option GoError
  client : Option GoError
  dynamicClient : Option GoError
  clientConfig : Option GoError
  discoverPlugins : Option GoError
  getRestoreItemActions : Option GoError
  newHelper : Option GoError
  newKubernetesRestorer : Option GoError
  restoreWarnings : Result
  restoreErrors : Result
  deriving DecidableEq

/-- A write of `bytes` at the end of the regular file `p`. -/
def osWrite (fs : FS) (p : String) (bytes : Bytes) : FS :=
  match fs p with
  | some (Node.file data) => fs.set p (some (Node.file (data ++ bytes)))
  | _ => fs

/-- The function `runBackup` (migrate.go, lines 46-111): the returned
descriptor or error, the events of the call, and the filesystem after it. -/
def runBackup (env : BackupEnv) (fs : FS) (kubeConfig plugins backupFile : String)
    (namespaces : List String) : Except GoError Backup × List Event × FS :=
  let ev0 := [Event.newFactory "source-cluster" kubeConfig]
  match env.kubeClient with
  | some e => (Except.error e, ev0, fs)
  | none =>
  match env.client with
  | some e => (Except.error e, ev0, fs)
  | none =>
  match env.dynamicClient with
  | some e => (Except.error e, ev0, fs)
  | none =>
  match env.clientConfig with
  | some e => (Except.error e, ev0, fs)
  | none =>
  let ev1 := ev0 ++ [Event.discoverPlugins plugins]
  match env.discoverPlugins with
  | some e => (Except.error e, ev1, fs)
  | none =>
  -- from here on the deferred CleanupClients runs on every return
  match env.getBackupItemActions with
  | some e => (Except.error e, ev1 ++ [Event.cleanupClients], fs)
  | none =>
  match env.newHelper with
  | some e => (Except.error e, ev1 ++ [Event.cleanupClients], fs)
  | none =>
  match env.newKubernetesBackupper with
  | some e => (Except.error e, ev1 ++ [Event.cleanupClients], fs)
  | none =>
  let backupParams :=
    ((((builder.ForBackup "default" "source").IncludedNamespaces namespaces).ExcludedResources
      ["persistentvolumeclaims", "persistentvolumes"]).DefaultVolumesToRestic false).Result
  let ev2 := ev1 ++ [Event.backup backupParams backupFile, Event.cleanupClients]
  let fs1 := osWrite fs backupFile env.backupOutput
  match env.backup with
  | some e => (Except.error e, ev2, fs1)
  | none => (Except.ok backupParams, ev2, fs1)

/-- The function `runRestore` (migrate.go, lines 113-183): the returned
warnings and errors, or the error, and the events of the call. -/
def runRestore (env : RestoreEnv) (kubeConfig plugins backupFile : String)
    (backup : Backup) : Except GoError (Result × Result) × List Event :=
  let ev0 := [Event.newFactory "dest-cluster" kubeConfig]
  match env.kubeClient with
  | some e => (Except.error e, ev0)
  | none =>
  match env.client with
  | some e => (Except.error e, ev0)
  | none =>
  match env.dynamicClient with
  | some e => (Except.error e, ev0)
  | none =>
  match env.clientConfig with
  | some e => (Except.error e, ev0)
  | none =>
  let ev1 := ev0 ++ [Event.discoverPlugins plugins]
  match env.discoverPlugins with
  | some e => (Except.error e, ev1)
  | none =>
  -- from here on the deferred CleanupClients runs on every return
  match env.getRestoreItemActions with
  | some e => (Except.error e, ev1 ++ [Event.cleanupClients])
  | none =>
  match env.newHelper with
  | some e => (Except.error e, ev1 ++ [Event.cleanupClients])
  | none =>
  let ev2 := ev1 ++ [Event.newKubernetesRestorer defaultRestorePriorities]
  match env.newKubernetesRestorer with
  | some e => (Except.error e, ev2 ++ [Event.cleanupClients])
  | none =>
  let restoreParams :=
    ((((builder.ForRestore "default" "dest").ExcludedResources nonRestorableResources).Backup
      backup.name).RestorePVs false).Result
  let restoreReq : RestoreRequest :=
    { restore := restoreParams, backup := backup, backupReader := backupFile }
  (Except.ok (env.restoreWarnings, env.restoreErrors),
    ev2 ++ [Event.restore restoreReq, Event.cleanupClients])

/-! ## The orchestrator -/

/-- The outcomes of everything `Run` calls: the temporary file, the faults of
the two credential copies, the two phases, the seek and the final remove. -/
structure RunEnv where
  /-- The name of the file `ioutil.TempFile` created (it opens the file with
  `O_EXCL`, so the path was free before), or its error. -/
  tempFile : Except GoError String
  copySource : CopyFaults
  backup : BackupEnv
  copyDest : CopyFaults
  seek : Option GoError
  restore : RestoreEnv
  /-- The final `os.Remove` fails (the code ignores its result). -/
  removeFails : Bool

/-- The function `Run` (migrate.go, lines 208-253): the events of the run,
in order, and the filesystem it leaves behind. -/
def Run (pathDir : String → String) (env : RunEnv) (fs : FS)
    (sourceKubeConfig destKubeConfig pluginKubeConfig plugins cache : String)
    (namespaces : List String) : List Event × FS :=
  match env.tempFile with
  | Except.error e =>
    ([Event.log Level.error "Failed to create a file for saving k8s artifacts" [] (some e)], fs)
  | Except.ok name =>
  -- from here on the deferred Close runs on every return
  let fs0 := fs.set name (some (Node.file []))
  let ev0 := [Event.tempFile cache "backup-*.tar" name,
    Event.log Level.info "Created %s for saving k8s artifacts" [name] none]
  let c1 := copyKubeConfig pathDir env.copySource fs0 sourceKubeConfig pluginKubeConfig
  let ev1 := ev0 ++ [Event.copyKubeConfig sourceKubeConfig pluginKubeConfig c1.1] ++
    (match c1.1 with
     | some e => [Event.log Level.error "Failed to copy kubeconfig for velero plugins" []
        (some e.toGoError)]
     | none => [])
  let b := runBackup env.backup c1.2 sourceKubeConfig plugins name namespaces
  let ev2 := ev1 ++ [Event.runBackupCall sourceKubeConfig plugins name namespaces] ++ b.2.1
  match b.1 with
  | Except.error e =>
    (ev2 ++ [Event.runBackupRet false,
      Event.log Level.error "Failed to run backup against the source cluster" [] (some e),
      Event.close name], b.2.2)
  | Except.ok backup =>
  let ev3 := ev2 ++ [Event.runBackupRet true,
    Event.log Level.info "Run backup successfully against the source cluster" [] none]
  let c2 := copyKubeConfig pathDir env.copyDest b.2.2 destKubeConfig pluginKubeConfig
  match c2.1 with
  | some e =>
    (ev3 ++ [Event.copyKubeConfig destKubeConfig pluginKubeConfig (some e),
      Event.log Level.error "Failed to copy kubeconfig for velero plugins" [] (some e.toGoError),
      Event.close name], c2.2)
  | none =>
  let ev4 := ev3 ++ [Event.copyKubeConfig destKubeConfig pluginKubeConfig none]
  match env.seek with
  | some e =>
    (ev4 ++ [Event.seek name 0 0 (some e),
      Event.log Level.error "Failed to set offset for restore on %s" [name] (some e),
      Event.close name], c2.2)
  | none =>
  let r := runRestore env.restore destKubeConfig plugins name backup
  let ev5 := ev4 ++ [Event.seek name 0 0 none,
    Event.runRestoreCall destKubeConfig plugins name backup] ++ r.2
  match r.1 with
  | Except.error e =>
    (ev5 ++ [Event.runRestoreRet false,
      Event.log Level.error "Failed to run restore against the destination cluster" [] (some e),
      Event.close name], c2.2)
  | Except.ok (restoreWarnings, restoreErrors) =>
  let ev6 := ev5 ++ [Event.runRestoreRet true] ++
    (if restoreWarnings.namespaces.length > 0 ∨ restoreWarnings.velero.length > 0 ∨
        restoreWarnings.cluster.length > 0
      then [Event.logResult Level.warning restoreWarnings] else []) ++
    (if restoreErrors.namespaces.length > 0 ∨ restoreErrors.velero.length > 0 ∨
        restoreErrors.cluster.length > 0
      then [Event.logResult Level.error restoreErrors]
      else [Event.log Level.info "Run restore successfully against the destination cluster" []
        none])
  let fs3 := (osRemove env.removeFails c2.2 name).getD c2.2
  (ev6 ++ [Event.remove name, Event.log Level.info "Removed artifacts %s" [name] none,
    Event.close name], fs3)

/-! ## Reading a run's events -/

/-- The steps made inside the two phases. -/
def Event.isPhaseStep : Event → Bool
  | Event.newFactory _ _ => true
  | Event.discoverPlugins _ => true
  | Event.cleanupClients => true
  | Event.backup _ _ => true
  | Event.newKubernetesRestorer _ => true
  | Event.restore _ => true
  | _ => false

/-- The three steps around which `Run` turns from export to replay: the
return of `runBackup`, the seek, and the call of `runRestore`. -/
def Event.isPivot : Event → Bool
  | Event.runBackupRet _ => true
  | Event.seek _ _ _ _ => true
  | Event.runRestoreCall _ _ _ _ => true
  | _ => false

/-- The return of `runBackup`. -/
def Event.isRunBackupRet : Event → Bool
  | Event.runBackupRet _ => true
  | _ => false

/-- A seek on the medium. -/
def Event.isSeek : Event → Bool
  | Event.seek _ _ _ _ => true
  | _ => false

/-- The call of `runRestore`. -/
def Event.isRunRestoreCall : Event → Bool
  | Event.runRestoreCall _ _ _ _ => true
  | _ => false

/-- The return of `runRestore`. -/
def Event.isRunRestoreRet : Event → Bool
  | Event.runRestoreRet _ => true
  | _ => false

/-- The replay engine's run, which reads the medium. -/
def Event.isRestore : Event → Bool
  | Event.restore _ => true
  | _ => false

/-- The operations on the Transfer Medium: its creation, the export's write,
a seek, the replay's read, its removal and its close. -/
def Event.onMedium : Event → Bool
  | Event.tempFile _ _ _ => true
  | Event.backup _ _ => true
  | Event.seek _ _ _ _ => true
  | Event.restore _ => true
  | Event.remove _ => true
  | Event.close _ => true
  | _ => false

/-- The message `Run` logs when the replay has no errors. -/
def restoreSuccessMessage : String :=
  "Run restore successfully against the destination cluster"

/-- The three report classes of the specification. -/
inductive Report where
  | completedWithErrors
  | completedWithWarnings
  | completedSuccessfully
  deriving DecidableEq

/-- The report class an event stands for: logging the error set is
"completed with errors", logging the warning set is "completed with
warnings", the success message is "completed successfully". -/
def Event.report : Event → Option Report
  | Event.logResult Level.error _ => some Report.completedWithErrors
  | Event.logResult Level.warning _ => some Report.completedWithWarnings
  | Event.log Level.info format _ _ =>
    if format = restoreSuccessMessage then some Report.completedSuccessfully else none
  | _ => none

/-- The reports of a run, in order. -/
def reportsOf (events : List Event) : List Report :=
  events.filterMap Event.report

/-- Some partition of the result is non-empty (the test of migrate.go, lines
243 and 246). -/
def Result.nonEmpty (r : Result) : Bool :=
  decide (r.namespaces.length > 0 ∨ r.velero.length > 0 ∨ r.cluster.length > 0)

/-- The classification as the specification words it: errors first, then
warnings, then success. -/
def specReport (warnings errors : Result) : Report :=
  if errors.nonEmpty then Report.completedWithErrors
  else if warnings.nonEmpty then Report.completedWithWarnings
  else Report.completedSuccessfully

/-- The groups of the replay order as the specification lists them:
cluster-scoped and namespace-scoping kinds, storage, identity and
configuration, workloads, cluster-API objects. -/
def specPriorityGroups : List (List String) :=
  [["customresourcedefinitions", "namespaces", "storageclasses",
    "volumesnapshotclass.snapshot.storage.k8s.io",
    "volumesnapshotcontents.snapshot.storage.k8s.io",
    "volumesnapshots.snapshot.storage.k8s.io"],
   ["persistentvolumes", "persistentvolumeclaims"],
   ["secrets", "configmaps", "serviceaccounts", "limitranges"],
   ["pods", "replicasets.apps"],
   ["clusters.cluster.x-k8s.io", "clusterresourcesets.addons.cluster.x-k8s.io"]]


/-! ## A concrete migration, for the examples -/

/-- A filesystem with the two cluster credentials, a scratch directory, and a
shared credential file left over from an earlier run against a third cluster. -/
def fsDemo : FS := fun p =>
  if p = "/cfg" then some Node.dir
  else if p = "/cfg/source" then some (Node.file [1, 1])
  else if p = "/cfg/dest" then some (Node.file [2, 2])
  else if p = "/plugins" then some Node.dir
  else if p = "/plugins/kubeconfig" then some (Node.file [9, 9])
  else if p = "/cache" then some Node.dir
  else none

/-- An export phase in which every call succeeds. -/
def backupOk : BackupEnv :=
  { kubeClient := none, client := none, dynamicClient := none, clientConfig := none,
    discoverPlugins := none, getBackupItemActions := none, newHelper := none,
    newKubernetesBackupper := none, backupOutput := [7, 7, 7], backup := none }

/-- A result without any message. -/
def emptyResult : Result :=
  { velero := [], cluster := [], namespaces := [] }

/-- A replay phase in which every call succeeds, without warnings or errors. -/
def restoreOk : RestoreEnv :=
  { kubeClient := none, client := none, dynamicClient := none, clientConfig := none,
    discoverPlugins := none, getRestoreItemActions := none, newHelper := none,
    newKubernetesRestorer := none, restoreWarnings := emptyResult,
    restoreErrors := emptyResult }

/-- A run in which nothing fails. -/
def envOk : RunEnv :=
  { tempFile := Except.ok "/cache/backup-1.tar", copySource := CopyFaults.none,
    backup := backupOk, copyDest := CopyFaults.none, seek := none, restore := restoreOk,
    removeFails := false }

/-- A run whose source cluster cannot be reached: `f.KubeClient()` fails in
`runBackup`. -/
def envBackupFails : RunEnv :=
  { envOk with backup := { backupOk with kubeClient := some "connection refused" } }

/-- A run in which the seek on the medium fails. -/
def envSeekFails : RunEnv :=
  { envOk with seek := some "seek failed" }

/-- A replay phase whose destination cluster cannot be reached. -/
def restoreUnreachable : RestoreEnv :=
  { restoreOk with kubeClient := some "connection refused" }

/-- A run whose replay fails before the engine starts. -/
def envRestoreFails : RunEnv :=
  { envOk with restore := restoreUnreachable }

/-- The shared credential file cannot be removed. -/
def faultsRemove : CopyFaults :=
  { CopyFaults.none with removeFails := true }

/-- A run in which the shared credential file cannot be removed, so that both
credential copies fail. -/
def envPublishFails : RunEnv :=
  { envOk with copySource := faultsRemove, copyDest := faultsRemove }

/-- The copy breaks off after the first byte (a full disk). -/
def faultsCopy : CopyFaults :=
  { CopyFaults.none with copyFailsAt := some 1 }

/-- The shared credential file cannot be created again after its removal. -/
def faultsCreate : CopyFaults :=
  { CopyFaults.none with createFails := true }

/-- One cluster-scoped message. -/
def oneClusterMessage : Result :=
  { velero := [], cluster := ["already exists"], namespaces := [] }

/-- A replay with one cluster-scoped warning and no error. -/
def restoreWarned : RestoreEnv :=
  { restoreOk with restoreWarnings := oneClusterMessage }

/-- A run whose replay ends with one warning and no error. -/
def envWarnings : RunEnv :=
  { envOk with restore := restoreWarned }

/-- The demo migration of the namespace `webapp` under the outcomes `env`. -/
def runDemo (env : RunEnv) : List Event × FS :=
  Run pathDirClean env fsDemo "/cfg/source" "/cfg/dest" "/plugins/kubeconfig"
    "/velero/plugins" "/cache" ["webapp"]

/-- The export parameters of the demo migration. -/
def demoBackup : Backup :=
  { ns := "default", name := "source", includedNamespaces := ["webapp"],
    excludedResources := ["persistentvolumeclaims", "persistentvolumes"],
    defaultVolumesToRestic := some false }

/-- The replay parameters of the demo migration. -/
def demoRestore : Restore :=
  { ns := "default", name := "dest",
    excludedResources := ["nodes", "events", "events.events.k8s.io"],
    backupName := "source", restorePVs := some false }

/-- The replay request of the demo migration. -/
def demoRequest : RestoreRequest :=
  { restore := demoRestore, backup := demoBackup, backupReader := "/cache/backup-1.tar" }

/-! ## Lemmas on the credential copy -/

/-- The directory step of `copyKubeConfig` leaves every existing path as it is. -/
theorem mkdir_step_keeps (flt : Bool) (fs : FS) (d q : String) (hq : fs q ≠ none) :
    (if osStat fs d = false then osMkdirAll flt fs d else fs) q = fs q := by
  unfold osStat osMkdirAll
  by_cases hd : fs d = none
  · have hne : q ≠ d := fun h => hq (h ▸ hd)
    cases flt <;> simp [hd, FS.set, hne]
  · obtain ⟨n, hn⟩ := Option.ne_none_iff_exists'.mp hd
    simp [hn]

/-- The removal step of `copyKubeConfig` touches the removed path only. -/
theorem remove_step_keeps (flt : Bool) (fs fs2 : FS) (p q : String) (hne : q ≠ p)
    (h : (if osStat fs p then osRemove flt fs p else some fs) = some fs2) : fs2 q = fs q := by
  unfold osRemove at h
  split at h
  · split at h
    · exact absurd h (by simp)
    · split at h
      · exact absurd h (by simp)
      · cases h; simp [FS.set, hne]
  · cases h; rfl

/-- A successful `os.Create` leaves an empty regular file at the path. -/
theorem osCreate_some (flt : Bool) (fs fs3 : FS) (parent p : String)
    (h : osCreate flt fs parent p = some fs3) : fs3 = fs.set p (some (Node.file [])) := by
  unfold osCreate at h
  split at h
  · exact absurd h (by simp)
  · split at h
    · exact absurd h (by simp)
    · cases h; rfl
    · exact absurd h (by simp)

/-! ## Lemmas on the two phases -/

/-- Every event of `runBackup` is a phase step, and none is a read of the medium. -/
theorem runBackup_steps (env : BackupEnv) (fs : FS) (k p f : String) (ns : List String) :
    ∀ e ∈ (runBackup env fs k p f ns).2.1, e.isPhaseStep = true ∧ e.isRestore = false := by
  have hall : (runBackup env fs k p f ns).2.1.all
      (fun e => e.isPhaseStep && !e.isRestore) = true := by
    unfold runBackup
    repeat' split
    all_goals rfl
  intro e he
  have := List.all_eq_true.mp hall e he
  simpa using this

/-- A successful `runBackup` returns the parameters it built and has run the
backup engine with them. -/
theorem runBackup_ok (env : BackupEnv) (fs : FS) (k p f : String) (ns : List String)
    (b : Backup) (h : (runBackup env fs k p f ns).1 = Except.ok b) :
    b = ((((builder.ForBackup "default" "source").IncludedNamespaces ns).ExcludedResources
      ["persistentvolumeclaims", "persistentvolumes"]).DefaultVolumesToRestic false).Result ∧
    (runBackup env fs k p f ns).2.1 =
      [Event.newFactory "source-cluster" k, Event.discoverPlugins p, Event.backup b f,
        Event.cleanupClients] := by
  unfold runBackup at h ⊢
  repeat' split at h
  all_goals first
    | (simp at h; done)
    | (simp only [Except.ok.injEq] at h; subst h; simp [*])

/-- Every run of the backup engine inside `runBackup` has the built parameters
and writes to the given file. -/
theorem runBackup_backup_event (env : BackupEnv) (fs : FS) (k p f : String)
    (namespaces : List String) (a : Event)
    (ha : a ∈ (runBackup env fs k p f namespaces).2.1) (params : Backup) (f1 : String)
    (h : a = Event.backup params f1) :
    params = ((((builder.ForBackup "default" "source").IncludedNamespaces
      namespaces).ExcludedResources
      ["persistentvolumeclaims", "persistentvolumes"]).DefaultVolumesToRestic false).Result ∧
    f1 = f := by
  subst h
  unfold runBackup at ha
  repeat' split at ha
  all_goals simp at ha
  all_goals
    obtain ⟨h1, h2⟩ := ha
    subst h1 h2
    exact ⟨rfl, rfl⟩

/-- Every event of `runRestore` is a phase step. -/
theorem runRestore_steps (env : RestoreEnv) (k p f : String) (b : Backup) :
    ∀ e ∈ (runRestore env k p f b).2, e.isPhaseStep = true := by
  have hall : (runRestore env k p f b).2.all Event.isPhaseStep = true := by
    unfold runRestore
    repeat' split
    all_goals rfl
  exact fun e he => List.all_eq_true.mp hall e he

/-- A successful `runRestore` returns the engine's warnings and errors and has
run the restore engine once. -/
theorem runRestore_ok (env : RestoreEnv) (k p f : String) (b : Backup) (w er : Result)
    (h : (runRestore env k p f b).1 = Except.ok (w, er)) :
    w = env.restoreWarnings ∧ er = env.restoreErrors ∧
    (runRestore env k p f b).2 =
      [Event.newFactory "dest-cluster" k, Event.discoverPlugins p,
        Event.newKubernetesRestorer defaultRestorePriorities,
        Event.restore
          { restore := ((((builder.ForRestore "default" "dest").ExcludedResources
              nonRestorableResources).Backup b.name).RestorePVs false).Result,
            backup := b, backupReader := f },
        Event.cleanupClients] := by
  unfold runRestore at h ⊢
  repeat' split at h
  all_goals first
    | (simp at h; done)
    | (simp only [Except.ok.injEq, Prod.mk.injEq] at h; obtain ⟨h1, h2⟩ := h; subst h1 h2
       simp [*])

/-- When `runRestore` runs the restore engine, the request is the one it built
and the events are those of the complete call. -/
theorem runRestore_restore (env : RestoreEnv) (k p f : String) (b : Backup)
    (req : RestoreRequest) (h : Event.restore req ∈ (runRestore env k p f b).2) :
    req = { restore := ((((builder.ForRestore "default" "dest").ExcludedResources
              nonRestorableResources).Backup b.name).RestorePVs false).Result,
            backup := b, backupReader := f } ∧
    (runRestore env k p f b).2 =
      [Event.newFactory "dest-cluster" k, Event.discoverPlugins p,
        Event.newKubernetesRestorer defaultRestorePriorities, Event.restore req,
        Event.cleanupClients] := by
  unfold runRestore at h ⊢
  repeat' split at h
  all_goals first
    | (simp at h; done)
    | (simp at h; subst h; simp [*])

/-- The backup engine does not run inside `runRestore`. -/
theorem runRestore_no_backup (env : RestoreEnv) (k p f : String) (b : Backup) (a : Event)
    (ha : a ∈ (runRestore env k p f b).2) (params : Backup) (f1 : String)
    (h : a = Event.backup params f1) : False := by
  subst h
  unfold runRestore at ha
  repeat' split at ha
  all_goals simp at ha

/-- The priorities `runRestore` hands to the importer are the fixed list. -/
theorem runRestore_priorities (env : RestoreEnv) (k p f : String) (b : Backup) :
    ∀ ps, Event.newKubernetesRestorer ps ∈ (runRestore env k p f b).2 →
      ps = defaultRestorePriorities := by
  intro ps h
  unfold runRestore at h
  repeat' split at h
  all_goals simp at h
  all_goals exact h

/-! ## Lemmas on lists and on events -/

/-- A list that holds one marked element splits around it in one way only. -/
theorem split_unique {α : Type} (p : α → Bool) (A B pre post : List α) (x y : α)
    (hA : ∀ a ∈ A, p a = false) (hB : ∀ a ∈ B, p a = false) (hy : p y = true)
    (h : A ++ x :: B = pre ++ y :: post) : pre = A ∧ y = x ∧ post = B := by
  induction A generalizing pre with
  | nil =>
    cases pre with
    | nil =>
      simp only [List.nil_append, List.cons.injEq] at h
      exact ⟨rfl, h.1.symm, h.2.symm⟩
    | cons z pre1 =>
      simp only [List.nil_append, List.cons_append, List.cons.injEq] at h
      have hyB : y ∈ B := by rw [h.2]; simp
      rw [hB y hyB] at hy
      exact absurd hy (by simp)
  | cons a A1 ih =>
    cases pre with
    | nil =>
      simp only [List.nil_append, List.cons_append, List.cons.injEq] at h
      have := hA a (by simp)
      rw [h.1, hy] at this
      exact absurd this (by simp)
    | cons z pre1 =>
      simp only [List.cons_append, List.cons.injEq] at h
      obtain ⟨h1, h2, h3⟩ := ih pre1 (fun c hc => hA c (by simp [hc])) h.2
      exact ⟨by rw [h.1, h1], h2, h3⟩

/-- A filter that no element passes yields the empty list. -/
theorem filter_nil_of_forall {α : Type} (p : α → Bool) (l : List α)
    (h : ∀ a ∈ l, p a = false) : l.filter p = [] := by
  induction l with
  | nil => rfl
  | cons x xs ih =>
    have hx := h x (by simp)
    simp [List.filter, hx, ih (fun a ha => h a (by simp [ha]))]

/-- A map into options that is undefined on every element yields the empty list. -/
theorem filterMap_nil_of_forall {α β : Type} (g : α → Option β) (l : List α)
    (h : ∀ a ∈ l, g a = none) : l.filterMap g = [] := by
  induction l with
  | nil => rfl
  | cons x xs ih =>
    have hx := h x (by simp)
    simp [List.filterMap_cons, hx, ih (fun a ha => h a (by simp [ha]))]

/-- A phase step is no pivot. -/
theorem pivot_of_phaseStep (a : Event) (h : a.isPhaseStep = true) : a.isPivot = false := by
  cases a <;> first | rfl | (simp [Event.isPhaseStep] at h)

/-- A phase step reports nothing. -/
theorem report_of_phaseStep (a : Event) (h : a.isPhaseStep = true) : a.report = none := by
  cases a <;> first | rfl | (simp [Event.isPhaseStep] at h)

/-- What is no pivot is no call of `runRestore`. -/
theorem call_of_not_pivot (a : Event) (h : a.isPivot = false) : a.isRunRestoreCall = false := by
  cases a <;> first | rfl | (simp [Event.isPivot] at h)

/-- What is no pivot is no return of `runBackup`. -/
theorem backupRet_of_not_pivot (a : Event) (h : a.isPivot = false) :
    a.isRunBackupRet = false := by
  cases a <;> first | rfl | (simp [Event.isPivot] at h)

/-- What is no pivot is no seek. -/
theorem seek_of_not_pivot (a : Event) (h : a.isPivot = false) : a.isSeek = false := by
  cases a <;> first | rfl | (simp [Event.isPivot] at h)

/-- A result is not non-empty exactly when its three partitions are empty. -/
theorem Result.nonEmpty_false_iff (r : Result) :
    r.nonEmpty = false ↔ r.namespaces = [] ∧ r.velero = [] ∧ r.cluster = [] := by
  unfold Result.nonEmpty
  rcases r with ⟨v, c, n⟩
  cases v <;> cases c <;> cases n <;> simp

/-! ## The shape of a run -/

/-- The shape of a run: either it never calls `runRestore` (and then has no
return of it and no read of the medium), or it consists of a head that ends
in the export's steps, the seven events from the export engine's run to the
call of `runRestore`, the events of `runRestore`, and a tail that is the
error exit or the report followed by the removal of the medium. -/
theorem Run_shape (pathDir : String → String) (env : RunEnv) (fs : FS)
    (src dst plug plugins cache : String) (ns : List String) :
    (∀ a ∈ (Run pathDir env fs src dst plug plugins cache ns).1,
      a.isRunRestoreCall = false ∧ a.isRunRestoreRet = false ∧ a.isRestore = false) ∨
    ∃ name b head tail,
      (Run pathDir env fs src dst plug plugins cache ns).1 =
        head ++ [Event.backup b name, Event.cleanupClients, Event.runBackupRet true,
          Event.log Level.info "Run backup successfully against the source cluster" [] none,
          Event.copyKubeConfig dst plug none, Event.seek name 0 0 none,
          Event.runRestoreCall dst plugins name b] ++
        (runRestore env.restore dst plugins name b).2 ++ tail ∧
      (∀ a ∈ head, a.isPivot = false ∧ a.report = none ∧ a.isRunRestoreRet = false) ∧
      head.filter Event.onMedium = [Event.tempFile cache "backup-*.tar" name] ∧
      (∀ a ∈ tail, a.isPivot = false ∧ a.isPhaseStep = false) ∧
      ((∃ e, (runRestore env.restore dst plugins name b).1 = Except.error e ∧
          tail = [Event.runRestoreRet false,
            Event.log Level.error "Failed to run restore against the destination cluster" []
              (some e), Event.close name]) ∨
        ((runRestore env.restore dst plugins name b).1 =
            Except.ok (env.restore.restoreWarnings, env.restore.restoreErrors) ∧
          tail = [Event.runRestoreRet true] ++
            (if env.restore.restoreWarnings.namespaces.length > 0 ∨
                env.restore.restoreWarnings.velero.length > 0 ∨
                env.restore.restoreWarnings.cluster.length > 0
              then [Event.logResult Level.warning env.restore.restoreWarnings] else []) ++
            (if env.restore.restoreErrors.namespaces.length > 0 ∨
                env.restore.restoreErrors.velero.length > 0 ∨
                env.restore.restoreErrors.cluster.length > 0
              then [Event.logResult Level.error env.restore.restoreErrors]
              else [Event.log Level.info
                "Run restore successfully against the destination cluster" [] none]) ++
            [Event.remove name, Event.log Level.info "Removed artifacts %s" [name] none,
              Event.close name])) := by
  unfold Run
  split
  · left; intro a ha; simp at ha; subst ha; exact ⟨rfl, rfl, rfl⟩
  · rename_i name hname
    dsimp only
    generalize copyKubeConfig pathDir env.copySource (fs.set name (some (Node.file []))) src plug
      = c1
    obtain ⟨c1, fs1⟩ := c1
    have hB1 := runBackup_steps env.backup fs1 src plugins name ns
    have hB2 := runBackup_ok env.backup fs1 src plugins name ns
    generalize runBackup env.backup fs1 src plugins name ns = rB at hB1 hB2 ⊢
    obtain ⟨rb, evB, fsB⟩ := rB
    dsimp only at hB1 hB2 ⊢
    have hcall : ∀ a ∈ evB, a.isRunRestoreCall = false := by
      intro a ha
      have := (hB1 a ha).1
      cases a <;> first | rfl | (simp [Event.isPhaseStep] at this)
    have hret : ∀ a ∈ evB, a.isRunRestoreRet = false := by
      intro a ha
      have := (hB1 a ha).1
      cases a <;> first | rfl | (simp [Event.isPhaseStep] at this)
    have hrd : ∀ a ∈ evB, a.isRestore = false := fun a ha => (hB1 a ha).2
    generalize copyKubeConfig pathDir env.copyDest fsB dst plug = c2
    obtain ⟨c2, fs2⟩ := c2
    dsimp only
    rcases rb with e | b
    · left
      rcases c1 with _ | ce <;>
        (simp only [List.mem_append, List.mem_cons, List.mem_singleton, List.not_mem_nil,
          or_false, false_or, or_imp, forall_and, forall_eq, false_imp_iff, implies_true,
          true_and, and_true]; repeat' apply And.intro) <;>
        first | rfl | exact hcall | exact hret | exact hrd
    · obtain ⟨hb, hevB⟩ := hB2 b rfl
      rcases c2 with _ | e
      · rcases hseek : env.seek with _ | e
        · right
          dsimp only
          rcases hr : (runRestore env.restore dst plugins name b).1 with e | ⟨w, er⟩
          · refine ⟨name, b, [Event.tempFile cache "backup-*.tar" name,
              Event.log Level.info "Created %s for saving k8s artifacts" [name] none] ++
              [Event.copyKubeConfig src plug c1] ++
              (match c1 with
               | some e => [Event.log Level.error "Failed to copy kubeconfig for velero plugins" []
                  (some e.toGoError)]
               | none => []) ++
              [Event.runBackupCall src plugins name ns, Event.newFactory "source-cluster" src,
                Event.discoverPlugins plugins],
              [Event.runRestoreRet false,
                Event.log Level.error "Failed to run restore against the destination cluster" []
                  (some e), Event.close name], ?_, ?_, ?_, ?_, ?_⟩
            · subst hevB
              rcases c1 with _ | ce <;> simp
            · rcases c1 with _ | ce <;>
                (simp only [List.mem_append, List.mem_cons, List.mem_singleton,
                  List.not_mem_nil, or_false, false_or, or_imp, forall_and, forall_eq,
                  false_imp_iff, implies_true, true_and, and_true]; repeat' apply And.intro) <;>
                rfl
            · rcases c1 with _ | ce <;> rfl
            · simp only [List.mem_append, List.mem_cons, List.mem_singleton,
                  List.not_mem_nil, or_false, false_or, or_imp, forall_and, forall_eq,
                  false_imp_iff, implies_true, true_and, and_true]
              repeat' apply And.intro
              all_goals rfl
            · exact Or.inl ⟨e, hr, rfl⟩
          · obtain ⟨hw, her, -⟩ := runRestore_ok env.restore dst plugins name b w er hr
            subst hw her
            refine ⟨name, b, [Event.tempFile cache "backup-*.tar" name,
              Event.log Level.info "Created %s for saving k8s artifacts" [name] none] ++
              [Event.copyKubeConfig src plug c1] ++
              (match c1 with
               | some e => [Event.log Level.error "Failed to copy kubeconfig for velero plugins" []
                  (some e.toGoError)]
               | none => []) ++
              [Event.runBackupCall src plugins name ns, Event.newFactory "source-cluster" src,
                Event.discoverPlugins plugins],
              _, ?_, ?_, ?_, ?_, Or.inr ⟨hr, rfl⟩⟩
            · subst hevB
              rcases c1 with _ | ce <;> simp
            · rcases c1 with _ | ce <;>
                (simp only [List.mem_append, List.mem_cons, List.mem_singleton,
                  List.not_mem_nil, or_false, false_or, or_imp, forall_and, forall_eq,
                  false_imp_iff, implies_true, true_and, and_true]; repeat' apply And.intro) <;>
                rfl
            · rcases c1 with _ | ce <;> rfl
            · split_ifs <;>
                (simp only [List.mem_append, List.mem_cons, List.mem_singleton,
                  List.not_mem_nil, or_false, false_or, or_imp, forall_and, forall_eq,
                  false_imp_iff, implies_true, true_and, and_true]; repeat' apply And.intro) <;>
                rfl
        · left
          rcases c1 with _ | ce <;>
            (simp only [List.mem_append, List.mem_cons, List.mem_singleton, List.not_mem_nil,
              or_false, false_or, or_imp, forall_and, forall_eq, false_imp_iff, implies_true,
              true_and, and_true]; repeat' apply And.intro) <;>
            first | rfl | exact hcall | exact hret | exact hrd
      · left
        rcases c1 with _ | ce <;>
          (simp only [List.mem_append, List.mem_cons, List.mem_singleton, List.not_mem_nil,
            or_false, false_or, or_imp, forall_and, forall_eq, false_imp_iff, implies_true,
            true_and, and_true]; repeat' apply And.intro) <;>
          first | rfl | exact hcall | exact hret | exact hrd

/-- Every run of the backup engine inside `Run` has the parameters built from
the namespaces `Run` was given. -/
theorem Run_backup_event (pathDir : String → String) (env : RunEnv) (fs : FS)
    (src dst plug plugins cache : String) (ns : List String) :
    ∀ a ∈ (Run pathDir env fs src dst plug plugins cache ns).1,
      ∀ (params : Backup) (f1 : String), a = Event.backup params f1 →
      params = ((((builder.ForBackup "default" "source").IncludedNamespaces
        ns).ExcludedResources
        ["persistentvolumeclaims", "persistentvolumes"]).DefaultVolumesToRestic false).Result := by
  unfold Run
  split
  · intro a ha; simp at ha; subst ha; intro _ _ h; cases h
  · rename_i name hname
    dsimp only
    generalize copyKubeConfig pathDir env.copySource (fs.set name (some (Node.file []))) src plug
      = c1
    obtain ⟨c1, fs1⟩ := c1
    have hB : ∀ a ∈ (runBackup env.backup fs1 src plugins name ns).2.1,
        ∀ (params : Backup) (f1 : String), a = Event.backup params f1 →
        params = ((((builder.ForBackup "default" "source").IncludedNamespaces
          ns).ExcludedResources
          ["persistentvolumeclaims", "persistentvolumes"]).DefaultVolumesToRestic false).Result :=
      fun a ha params f1 h =>
        (runBackup_backup_event env.backup fs1 src plugins name ns a ha params f1 h).1
    generalize runBackup env.backup fs1 src plugins name ns = rB at hB ⊢
    obtain ⟨rb, evB, fsB⟩ := rB
    dsimp only at hB ⊢
    generalize copyKubeConfig pathDir env.copyDest fsB dst plug = c2
    obtain ⟨c2, fs2⟩ := c2
    dsimp only
    rcases rb with e | b
    · rcases c1 with _ | ce <;>
        (simp only [List.mem_append, List.mem_cons, List.mem_singleton, List.not_mem_nil,
          or_false, false_or, or_imp, forall_and, forall_eq, false_imp_iff, implies_true,
          true_and, and_true]; repeat' apply And.intro) <;>
        first | exact hB | (intro _ _ h; cases h)
    · have hR : ∀ a ∈ (runRestore env.restore dst plugins name b).2,
          ∀ (params : Backup) (f1 : String), a = Event.backup params f1 →
          params = ((((builder.ForBackup "default" "source").IncludedNamespaces
            ns).ExcludedResources
            ["persistentvolumeclaims", "persistentvolumes"]).DefaultVolumesToRestic
            false).Result :=
        fun a ha params f1 h =>
          (runRestore_no_backup env.restore dst plugins name b a ha params f1 h).elim
      rcases c2 with _ | e
      · rcases hseek : env.seek with _ | e
        · dsimp only
          rcases hr : (runRestore env.restore dst plugins name b).1 with e | ⟨w, er⟩
          · rcases c1 with _ | ce <;>
              (simp only [List.mem_append, List.mem_cons, List.mem_singleton, List.not_mem_nil,
                or_false, false_or, or_imp, forall_and, forall_eq, false_imp_iff,
                implies_true, true_and, and_true]; repeat' apply And.intro) <;>
              first | exact hB | exact hR | (intro _ _ h; cases h)
          · dsimp only
            rcases c1 with _ | ce <;> split_ifs <;>
              (simp only [List.mem_append, List.mem_cons, List.mem_singleton, List.not_mem_nil,
                or_false, false_or, or_imp, forall_and, forall_eq, false_imp_iff,
                implies_true, true_and, and_true]; repeat' apply And.intro) <;>
              first | exact hB | exact hR | (intro _ _ h; cases h)
        · rcases c1 with _ | ce <;>
            (simp only [List.mem_append, List.mem_cons, List.mem_singleton, List.not_mem_nil,
              or_false, false_or, or_imp, forall_and, forall_eq, false_imp_iff, implies_true,
              true_and, and_true]; repeat' apply And.intro) <;>
            first | exact hB | (intro _ _ h; cases h)
      · rcases c1 with _ | ce <;>
          (simp only [List.mem_append, List.mem_cons, List.mem_singleton, List.not_mem_nil,
            or_false, false_or, or_imp, forall_and, forall_eq, false_imp_iff, implies_true,
            true_and, and_true]; repeat' apply And.intro) <;>
          first | exact hB | (intro _ _ h; cases h)

/-! ## C1 and C2: the two early-exit defects of `Run` -/

/-- C1, evaluated where the code breaks it: when the export fails (here the
source cluster cannot be reached), `Run` returns with the Transfer Medium it
created still on disk and without ever calling `os.Remove`; the same happens,
with the exported bytes left in the file, when the copy of the destination
credential, the seek or the replay fails; only the run that reaches the end
removes the file. -/
theorem Run_leaks_medium_when_backup_fails :
    fsDemo "/cache/backup-1.tar" = none ∧
    (runDemo envBackupFails).1 =
      [Event.tempFile "/cache" "backup-*.tar" "/cache/backup-1.tar",
        Event.log Level.info "Created %s for saving k8s artifacts" ["/cache/backup-1.tar"] none,
        Event.copyKubeConfig "/cfg/source" "/plugins/kubeconfig" none,
        Event.runBackupCall "/cfg/source" "/velero/plugins" "/cache/backup-1.tar" ["webapp"],
        Event.newFactory "source-cluster" "/cfg/source",
        Event.runBackupRet false,
        Event.log Level.error "Failed to run backup against the source cluster" []
          (some "connection refused"),
        Event.close "/cache/backup-1.tar"] ∧
    (runDemo envBackupFails).2 "/cache/backup-1.tar" = some (Node.file []) ∧
    (runDemo envPublishFails).2 "/cache/backup-1.tar" = some (Node.file [7, 7, 7]) ∧
    (runDemo envSeekFails).2 "/cache/backup-1.tar" = some (Node.file [7, 7, 7]) ∧
    (runDemo envRestoreFails).2 "/cache/backup-1.tar" = some (Node.file [7, 7, 7]) ∧
    Event.remove "/cache/backup-1.tar" ∈ (runDemo envOk).1 ∧
    (runDemo envOk).2 "/cache/backup-1.tar" = none := by
  decide

/-- C2, evaluated where the code breaks it: the copy of the source credential
fails (the shared file cannot be removed), `Run` logs the error and goes on:
`runBackup` is called and the backup engine runs while the shared credential
file still holds the credential of another cluster. -/
theorem Run_exports_after_failed_publish :
    (copyKubeConfig pathDirClean faultsRemove
      (fsDemo.set "/cache/backup-1.tar" (some (Node.file [])))
      "/cfg/source" "/plugins/kubeconfig").1 = some CopyError.removeTarget ∧
    (copyKubeConfig pathDirClean faultsRemove
      (fsDemo.set "/cache/backup-1.tar" (some (Node.file [])))
      "/cfg/source" "/plugins/kubeconfig").2 "/plugins/kubeconfig" = some (Node.file [9, 9]) ∧
    fsDemo "/cfg/source" = some (Node.file [1, 1]) ∧
    (runDemo envPublishFails).1 =
      [Event.tempFile "/cache" "backup-*.tar" "/cache/backup-1.tar",
        Event.log Level.info "Created %s for saving k8s artifacts" ["/cache/backup-1.tar"] none,
        Event.copyKubeConfig "/cfg/source" "/plugins/kubeconfig" (some CopyError.removeTarget),
        Event.log Level.error "Failed to copy kubeconfig for velero plugins" [] (some "remove"),
        Event.runBackupCall "/cfg/source" "/velero/plugins" "/cache/backup-1.tar" ["webapp"],
        Event.newFactory "source-cluster" "/cfg/source",
        Event.discoverPlugins "/velero/plugins",
        Event.backup demoBackup "/cache/backup-1.tar",
        Event.cleanupClients,
        Event.runBackupRet true,
        Event.log Level.info "Run backup successfully against the source cluster" [] none,
        Event.copyKubeConfig "/cfg/dest" "/plugins/kubeconfig" (some CopyError.removeTarget),
        Event.log Level.error "Failed to copy kubeconfig for velero plugins" [] (some "remove"),
        Event.close "/cache/backup-1.tar"] := by
  decide

/-! ## C3: the replay is guarded -/

/-- C3: in every run, the call of `runRestore` is directly preceded by the
successful seek, that by the successful copy of the destination credential,
and that by the successful return of `runBackup` (first part); a run whose
export returns an error never calls `runRestore` (second part); and a run in
which the copy of the destination credential, the copy made right after the
export's return, fails never calls `runRestore` (third part). -/
theorem Run_replay_only_after_success (pathDir : String → String) (env : RunEnv) (fs : FS)
    (src dst plug plugins cache : String) (ns : List String) :
    (∀ pre post k p f b,
      (Run pathDir env fs src dst plug plugins cache ns).1 =
        pre ++ Event.runRestoreCall k p f b :: post →
      ∃ pre0, pre = pre0 ++ [Event.runBackupRet true,
        Event.log Level.info "Run backup successfully against the source cluster" [] none,
        Event.copyKubeConfig dst plug none, Event.seek f 0 0 none]) ∧
    (Event.runBackupRet false ∈ (Run pathDir env fs src dst plug plugins cache ns).1 →
      ∀ k p f b,
        Event.runRestoreCall k p f b ∉ (Run pathDir env fs src dst plug plugins cache ns).1) ∧
    (∀ pre post e,
      (Run pathDir env fs src dst plug plugins cache ns).1 =
        pre ++ Event.runBackupRet true ::
          Event.log Level.info "Run backup successfully against the source cluster" [] none ::
          Event.copyKubeConfig dst plug (some e) :: post →
      ∀ k p f b,
        Event.runRestoreCall k p f b ∉ (Run pathDir env fs src dst plug plugins cache ns).1) := by
  rcases Run_shape pathDir env fs src dst plug plugins cache ns with
    hno | ⟨name, b, head, tail, ht, hhead, -, htail, -⟩
  · have hnone : ∀ k p f b,
        Event.runRestoreCall k p f b ∉ (Run pathDir env fs src dst plug plugins cache ns).1 := by
      intro k p f b hmem
      have := (hno _ hmem).1
      simp [Event.isRunRestoreCall] at this
    refine ⟨?_, fun _ => hnone, fun _ _ _ _ => hnone⟩
    intro pre post k p f b h
    exact absurd (by rw [h]; simp) (hnone k p f b)
  · have hR := runRestore_steps env.restore dst plugins name b
    generalize (runRestore env.restore dst plugins name b).2 = evR at ht hR
    generalize (Run pathDir env fs src dst plug plugins cache ns).1 = t at ht
    subst ht
    have hheadP : ∀ a ∈ head, a.isPivot = false := fun a ha => (hhead a ha).1
    have htailP : ∀ a ∈ tail, a.isPivot = false := fun a ha => (htail a ha).1
    have hRP : ∀ a ∈ evR, a.isPivot = false := fun a ha => pivot_of_phaseStep a (hR a ha)
    refine ⟨?_, ?_, ?_⟩
    · intro pre post k p f b1 h
      have h2 : (head ++ [Event.backup b name, Event.cleanupClients, Event.runBackupRet true,
          Event.log Level.info "Run backup successfully against the source cluster" [] none,
          Event.copyKubeConfig dst plug none, Event.seek name 0 0 none]) ++
          Event.runRestoreCall dst plugins name b :: (evR ++ tail) =
          pre ++ Event.runRestoreCall k p f b1 :: post := by
        rw [← h]; simp
      have hA : ∀ a ∈ head ++ [Event.backup b name, Event.cleanupClients,
          Event.runBackupRet true,
          Event.log Level.info "Run backup successfully against the source cluster" [] none,
          Event.copyKubeConfig dst plug none, Event.seek name 0 0 none],
          a.isRunRestoreCall = false := by
        simp only [List.mem_append, List.mem_cons, List.mem_singleton, List.not_mem_nil,
          or_false, false_or, or_imp, forall_and, forall_eq, false_imp_iff, implies_true,
          true_and, and_true]
        repeat' apply And.intro
        all_goals first | rfl | exact fun a ha => call_of_not_pivot a (hheadP a ha)
      have hB : ∀ a ∈ evR ++ tail, a.isRunRestoreCall = false := by
        intro a ha
        rcases List.mem_append.mp ha with ha | ha
        · exact call_of_not_pivot a (hRP a ha)
        · exact call_of_not_pivot a (htailP a ha)
      obtain ⟨hpre, hy, -⟩ := split_unique Event.isRunRestoreCall _ _ _ _ _ _ hA hB
        (show (Event.runRestoreCall k p f b1).isRunRestoreCall = true from rfl) h2
      simp only [Event.runRestoreCall.injEq] at hy
      obtain ⟨-, -, hf, -⟩ := hy
      subst hf
      exact ⟨head ++ [Event.backup b f, Event.cleanupClients], by rw [hpre]; simp⟩
    · intro hmem k p f b1 _
      simp only [List.mem_append, List.mem_cons, List.mem_singleton, List.not_mem_nil,
        or_false, false_or, reduceCtorEq] at hmem
      rcases hmem with ((hm | hm) | hm) | hm
      · exact absurd (hheadP _ hm) (by simp [Event.isPivot])
      · simp at hm
      · exact absurd (hRP _ hm) (by simp [Event.isPivot])
      · exact absurd (htailP _ hm) (by simp [Event.isPivot])
    · intro pre post e h k p f b1 _
      have h2 : (head ++ [Event.backup b name, Event.cleanupClients]) ++
          Event.runBackupRet true ::
          ([Event.log Level.info "Run backup successfully against the source cluster" [] none,
            Event.copyKubeConfig dst plug none, Event.seek name 0 0 none,
            Event.runRestoreCall dst plugins name b] ++ evR ++ tail) =
          pre ++ Event.runBackupRet true ::
          (Event.log Level.info "Run backup successfully against the source cluster" [] none ::
          Event.copyKubeConfig dst plug (some e) :: post) := by
        rw [← h]; simp
      have hA : ∀ a ∈ head ++ [Event.backup b name, Event.cleanupClients],
          a.isRunBackupRet = false := by
        simp only [List.mem_append, List.mem_cons, List.mem_singleton, List.not_mem_nil,
          or_false, false_or, or_imp, forall_and, forall_eq, false_imp_iff, implies_true,
          true_and, and_true]
        repeat' apply And.intro
        all_goals first | rfl | exact fun a ha => backupRet_of_not_pivot a (hheadP a ha)
      have hB : ∀ a ∈ [Event.log Level.info
            "Run backup successfully against the source cluster" [] none,
            Event.copyKubeConfig dst plug none, Event.seek name 0 0 none,
            Event.runRestoreCall dst plugins name b] ++ evR ++ tail,
          a.isRunBackupRet = false := by
        simp only [List.mem_append, List.mem_cons, List.mem_singleton, List.not_mem_nil,
          or_false, false_or, or_imp, forall_and, forall_eq, false_imp_iff, implies_true,
          true_and, and_true]
        repeat' apply And.intro
        all_goals first
          | rfl
          | exact fun a ha => backupRet_of_not_pivot a (hRP a ha)
          | exact fun a ha => backupRet_of_not_pivot a (htailP a ha)
      obtain ⟨-, -, hpost⟩ := split_unique Event.isRunBackupRet _ _ _ _ _ _ hA hB
        (show (Event.runBackupRet true).isRunBackupRet = true from rfl) h2
      simp at hpost

/-- For C3, a witness: in the demo run without failures the twelve events
before the call of `runRestore` end with the successful return of the
export, the successful copy of the destination credential and the
successful seek; and the run whose export fails never calls `runRestore`. -/
theorem Run_replay_only_after_success_witness :
    (∃ pre0, (runDemo envOk).1.take 12 = pre0 ++ [Event.runBackupRet true,
      Event.log Level.info "Run backup successfully against the source cluster" [] none,
      Event.copyKubeConfig "/cfg/dest" "/plugins/kubeconfig" none,
      Event.seek "/cache/backup-1.tar" 0 0 none]) ∧
    Event.runBackupRet false ∈ (runDemo envBackupFails).1 ∧
    Event.runRestoreCall "/cfg/dest" "/velero/plugins" "/cache/backup-1.tar" demoBackup ∉
      (runDemo envBackupFails).1 :=
  ⟨(Run_replay_only_after_success pathDirClean envOk fsDemo "/cfg/source" "/cfg/dest"
      "/plugins/kubeconfig" "/velero/plugins" "/cache" ["webapp"]).1
      ((runDemo envOk).1.take 12) ((runDemo envOk).1.drop 13)
      "/cfg/dest" "/velero/plugins" "/cache/backup-1.tar" demoBackup (by decide),
    by decide,
    (Run_replay_only_after_success pathDirClean envBackupFails fsDemo "/cfg/source" "/cfg/dest"
      "/plugins/kubeconfig" "/velero/plugins" "/cache" ["webapp"]).2.1 (by decide)
      "/cfg/dest" "/velero/plugins" "/cache/backup-1.tar" demoBackup⟩

/-! ## C4: the report -/

/-- C4 fails as stated: with one warning and no error, `Run` reports the
warnings and then success, two classes where the specification's
classification has the one class "completed with warnings"; the success
report is produced although a warning partition is non-empty. -/
theorem Run_reports_success_with_warnings :
    Event.runRestoreRet true ∈ (runDemo envWarnings).1 ∧
    envWarnings.restore.restoreWarnings.cluster = ["already exists"] ∧
    specReport envWarnings.restore.restoreWarnings envWarnings.restore.restoreErrors =
      Report.completedWithWarnings ∧
    reportsOf (runDemo envWarnings).1 =
      [Report.completedWithWarnings, Report.completedSuccessfully] := by
  decide

/-- C4, as the code has it: when the replay returns without a fatal error, `Run` reports the
warnings exactly when a warning partition is non-empty and, independently of that, reports
the errors when an error partition is non-empty and success otherwise; so the success
report is produced exactly when the three error partitions are empty. -/
theorem Run_reports (pathDir : String → String) (env : RunEnv) (fs : FS)
    (src dst plug plugins cache : String) (ns : List String)
    (h : Event.runRestoreRet true ∈ (Run pathDir env fs src dst plug plugins cache ns).1) :
    reportsOf (Run pathDir env fs src dst plug plugins cache ns).1 =
      (if env.restore.restoreWarnings.nonEmpty then [Report.completedWithWarnings] else []) ++
      [if env.restore.restoreErrors.nonEmpty then Report.completedWithErrors
        else Report.completedSuccessfully] ∧
    (Report.completedSuccessfully ∈
        reportsOf (Run pathDir env fs src dst plug plugins cache ns).1 ↔
      env.restore.restoreErrors.namespaces = [] ∧ env.restore.restoreErrors.velero = [] ∧
        env.restore.restoreErrors.cluster = []) := by
  have key : reportsOf (Run pathDir env fs src dst plug plugins cache ns).1 =
      (if env.restore.restoreWarnings.nonEmpty then [Report.completedWithWarnings] else []) ++
      [if env.restore.restoreErrors.nonEmpty then Report.completedWithErrors
        else Report.completedSuccessfully] := by
    rcases Run_shape pathDir env fs src dst plug plugins cache ns with
      hno | ⟨name, b, head, tail, ht, hhead, -, -, halt⟩
    · have := (hno _ h).2.1
      simp [Event.isRunRestoreRet] at this
    · have hR := runRestore_steps env.restore dst plugins name b
      generalize (runRestore env.restore dst plugins name b).2 = evR at ht hR
      generalize (Run pathDir env fs src dst plug plugins cache ns).1 = t at ht h
      subst ht
      rcases halt with ⟨e, -, htail⟩ | ⟨-, htail⟩
      · subst htail
        rcases List.mem_append.mp h with h1 | h1
        · rcases List.mem_append.mp h1 with h2 | h2
          · rcases List.mem_append.mp h2 with h3 | h3
            · exact absurd (hhead _ h3).2.2 (by simp [Event.isRunRestoreRet])
            · simp at h3
          · exact absurd (hR _ h2) (by simp [Event.isPhaseStep])
        · simp at h1
      · subst htail
        unfold reportsOf
        rw [List.filterMap_append, List.filterMap_append, List.filterMap_append,
          filterMap_nil_of_forall _ head (fun a ha => (hhead a ha).2.1),
          filterMap_nil_of_forall _ evR (fun a ha => report_of_phaseStep a (hR a ha))]
        unfold Result.nonEmpty
        split_ifs <;> simp_all [Event.report, restoreSuccessMessage]
  refine ⟨key, ?_⟩
  rw [key, ← Result.nonEmpty_false_iff]
  cases env.restore.restoreWarnings.nonEmpty <;> cases env.restore.restoreErrors.nonEmpty <;>
    simp

/-- For C4, a witness: the demo run with one warning and no error. -/
theorem Run_reports_witness :
    Event.runRestoreRet true ∈ (runDemo envWarnings).1 ∧
    reportsOf (runDemo envWarnings).1 =
      (if envWarnings.restore.restoreWarnings.nonEmpty then [Report.completedWithWarnings]
        else []) ++
      [if envWarnings.restore.restoreErrors.nonEmpty then Report.completedWithErrors
        else Report.completedSuccessfully] :=
  ⟨by decide, (Run_reports pathDirClean envWarnings fsDemo "/cfg/source" "/cfg/dest"
    "/plugins/kubeconfig" "/velero/plugins" "/cache" ["webapp"] (by decide)).1⟩

/-! ## C5 and C6: the credential copy -/

/-- C5: when `copyKubeConfig(from, to)` returns without error on two
different paths, `from` was a regular file, `to` is afterwards a regular file
with the same bytes, whether or not anything existed at `to` before, and
`from` still has these bytes. -/
theorem copyKubeConfig_publishes (pathDir : String → String) (flt : CopyFaults) (fs : FS)
    (src dst : String) (hne : src ≠ dst)
    (hok : (copyKubeConfig pathDir flt fs src dst).1 = none) :
    ∃ data, fs src = some (Node.file data) ∧
      (copyKubeConfig pathDir flt fs src dst).2 dst = some (Node.file data) ∧
      (copyKubeConfig pathDir flt fs src dst).2 src = some (Node.file data) := by
  unfold copyKubeConfig at hok ⊢
  cases hopen : osOpen flt.openFails fs src with
  | none => simp [hopen] at hok
  | some fromFile =>
    have hsrc : fs src = some fromFile := by
      unfold osOpen at hopen
      split at hopen
      · exact absurd hopen (by simp)
      · exact hopen
    simp only [hopen] at hok ⊢
    have h1 := mkdir_step_keeps flt.mkdirFails fs (pathDir dst) src (by simp [hsrc])
    generalize (if osStat fs (pathDir dst) = false
      then osMkdirAll flt.mkdirFails fs (pathDir dst) else fs) = fs1 at hok h1 ⊢
    cases hrem : (if osStat fs1 dst then osRemove flt.removeFails fs1 dst else some fs1) with
    | none => simp [hrem] at hok
    | some fs2 =>
      have h2 : fs2 src = fs1 src := remove_step_keeps flt.removeFails fs1 fs2 dst src hne hrem
      simp only [hrem] at hok ⊢
      cases hcr : osCreate flt.createFails fs2 (pathDir dst) dst with
      | none => simp [hcr] at hok
      | some fs3 =>
        have h3 : fs3 = fs2.set dst (some (Node.file [])) := osCreate_some _ _ _ _ _ hcr
        simp only [hcr] at hok ⊢
        cases fromFile with
        | dir => simp [ioCopy] at hok
        | file data =>
          cases hf : flt.copyFailsAt with
          | some n => simp [ioCopy, hf] at hok
          | none =>
            refine ⟨data, hsrc, ?_, ?_⟩
            · simp [ioCopy, hf, FS.set]
            · simp [ioCopy, hf, FS.set, hne, h3, h2, h1, hsrc]

/-- For C5, a witness: the source credential is published over a shared file
left by an earlier run. -/
theorem copyKubeConfig_publishes_witness :
    "/cfg/source" ≠ "/plugins/kubeconfig" ∧
    fsDemo "/plugins/kubeconfig" = some (Node.file [9, 9]) ∧
    (copyKubeConfig pathDirClean CopyFaults.none fsDemo "/cfg/source"
      "/plugins/kubeconfig").1 = none ∧
    ∃ data, fsDemo "/cfg/source" = some (Node.file data) ∧
      (copyKubeConfig pathDirClean CopyFaults.none fsDemo "/cfg/source"
        "/plugins/kubeconfig").2 "/plugins/kubeconfig" = some (Node.file data) ∧
      (copyKubeConfig pathDirClean CopyFaults.none fsDemo "/cfg/source"
        "/plugins/kubeconfig").2 "/cfg/source" = some (Node.file data) :=
  ⟨by decide, by decide, by decide,
    copyKubeConfig_publishes pathDirClean CopyFaults.none fsDemo "/cfg/source"
      "/plugins/kubeconfig" (by decide) (by decide)⟩

/-- C6 fails as stated: a copy that breaks off after the first byte returns
an error and leaves the shared file with that one byte instead of its
previous contents; and when the file cannot be created again after its
removal, the call returns an error and leaves no shared file at all. -/
theorem copyKubeConfig_not_atomic :
    fsDemo "/plugins/kubeconfig" = some (Node.file [9, 9]) ∧
    (copyKubeConfig pathDirClean faultsCopy fsDemo "/cfg/source"
      "/plugins/kubeconfig").1 = some CopyError.copyData ∧
    (copyKubeConfig pathDirClean faultsCopy fsDemo "/cfg/source"
      "/plugins/kubeconfig").2 "/plugins/kubeconfig" = some (Node.file [1]) ∧
    (copyKubeConfig pathDirClean faultsCreate fsDemo "/cfg/source"
      "/plugins/kubeconfig").1 = some CopyError.createTarget ∧
    (copyKubeConfig pathDirClean faultsCreate fsDemo "/cfg/source"
      "/plugins/kubeconfig").2 "/plugins/kubeconfig" = none := by
  decide

/-- C6, as the code has it: when `copyKubeConfig` returns the error of
`os.Open(from)` or of `os.Remove(to)`, that is, before it removed the file,
a file that existed at the shared path is still there with its previous
contents. -/
theorem copyKubeConfig_early_error_keeps (pathDir : String → String) (flt : CopyFaults)
    (fs : FS) (src dst : String) (prev : Bytes) (e : CopyError)
    (hprev : fs dst = some (Node.file prev))
    (herr : (copyKubeConfig pathDir flt fs src dst).1 = some e)
    (hearly : e = CopyError.openSource ∨ e = CopyError.removeTarget) :
    (copyKubeConfig pathDir flt fs src dst).2 dst = some (Node.file prev) := by
  unfold copyKubeConfig at herr ⊢
  cases hopen : osOpen flt.openFails fs src with
  | none => simp only [hopen]; exact hprev
  | some fromFile =>
    simp only [hopen] at herr ⊢
    have h1 := mkdir_step_keeps flt.mkdirFails fs (pathDir dst) dst (by simp [hprev])
    generalize (if osStat fs (pathDir dst) = false
      then osMkdirAll flt.mkdirFails fs (pathDir dst) else fs) = fs1 at herr h1 ⊢
    cases hrem : (if osStat fs1 dst then osRemove flt.removeFails fs1 dst else some fs1) with
    | none => simp only [hrem]; rw [h1]; exact hprev
    | some fs2 =>
      simp only [hrem] at herr ⊢
      cases hcr : osCreate flt.createFails fs2 (pathDir dst) dst with
      | none =>
        simp only [hcr, Option.some.injEq] at herr
        subst herr
        simp at hearly
      | some fs3 =>
        simp only [hcr] at herr
        have hcopy : e = CopyError.copyData := by
          unfold ioCopy at herr
          repeat' split at herr
          all_goals simp at herr
          all_goals exact herr.symm
        subst hcopy
        simp at hearly

/-- For C6, a witness: the shared file cannot be removed. -/
theorem copyKubeConfig_early_error_keeps_witness :
    fsDemo "/plugins/kubeconfig" = some (Node.file [9, 9]) ∧
    (copyKubeConfig pathDirClean faultsRemove fsDemo "/cfg/source"
      "/plugins/kubeconfig").1 = some CopyError.removeTarget ∧
    (copyKubeConfig pathDirClean faultsRemove fsDemo "/cfg/source"
      "/plugins/kubeconfig").2 "/plugins/kubeconfig" = some (Node.file [9, 9]) :=
  ⟨by decide, by decide,
    copyKubeConfig_early_error_keeps pathDirClean faultsRemove fsDemo "/cfg/source"
      "/plugins/kubeconfig" [9, 9] CopyError.removeTarget (by decide) (by decide)
      (Or.inr rfl)⟩

/-! ## C7: the replay priorities -/

/-- C7: the replay priority list is the concatenation of the five groups in
the order cluster-scoped and namespace-scoping kinds, storage, identity and
configuration, workloads, cluster-API objects, without a repeated kind, so
every kind of an earlier group stands before every kind of a later group;
and the list `runRestore` hands to the importer is this list, handed over
before the importer runs. -/
theorem restore_priorities_grouped :
    defaultRestorePriorities = specPriorityGroups.flatten ∧
    defaultRestorePriorities.Nodup ∧
    (∀ i j : Fin 5, i < j → ∀ a ∈ specPriorityGroups.getD i [],
      ∀ b ∈ specPriorityGroups.getD j [],
        a ∈ defaultRestorePriorities ∧ b ∈ defaultRestorePriorities ∧
        defaultRestorePriorities.indexOf a < defaultRestorePriorities.indexOf b) ∧
    (∀ (env : RestoreEnv) (k p f : String) (b : Backup) (ps : List String),
      Event.newKubernetesRestorer ps ∈ (runRestore env k p f b).2 →
        ps = defaultRestorePriorities) ∧
    (∀ (env : RestoreEnv) (k p f : String) (b : Backup) (req : RestoreRequest)
      (pre post : List Event),
      (runRestore env k p f b).2 = pre ++ Event.restore req :: post →
        Event.newKubernetesRestorer defaultRestorePriorities ∈ pre) := by
  refine ⟨by decide, by decide, by decide, runRestore_priorities, ?_⟩
  intro env k p f b req pre post h
  have hmem : Event.restore req ∈ (runRestore env k p f b).2 := by rw [h]; simp
  obtain ⟨-, hev⟩ := runRestore_restore env k p f b req hmem
  rw [hev] at h
  have h2 : [Event.newFactory "dest-cluster" k, Event.discoverPlugins p,
      Event.newKubernetesRestorer defaultRestorePriorities] ++
      Event.restore req :: [Event.cleanupClients] = pre ++ Event.restore req :: post := by
    rw [← h]; rfl
  obtain ⟨hpre, -, -⟩ := split_unique Event.isRestore _ _ _ _ _ _
    (by intro a ha; simp at ha; rcases ha with rfl | rfl | rfl <;> rfl)
    (by intro a ha; simp at ha; subst ha; rfl)
    (show (Event.restore req).isRestore = true from rfl) h2
  rw [hpre]; simp

/-- For C7, a witness: `namespaces` (first group) stands before `pods`
(fourth group) in the list, and the demo replay hands the list over before
the importer runs. -/
theorem restore_priorities_grouped_witness :
    defaultRestorePriorities.indexOf "namespaces" < defaultRestorePriorities.indexOf "pods" ∧
    Event.newKubernetesRestorer defaultRestorePriorities ∈
      [Event.newFactory "dest-cluster" "/cfg/dest", Event.discoverPlugins "/velero/plugins",
        Event.newKubernetesRestorer defaultRestorePriorities] :=
  ⟨(restore_priorities_grouped.2.2.1 0 3 (by decide) "namespaces" (by decide)
      "pods" (by decide)).2.2,
    restore_priorities_grouped.2.2.2.2 restoreOk "/cfg/dest" "/velero/plugins"
      "/cache/backup-1.tar" demoBackup demoRequest
      [Event.newFactory "dest-cluster" "/cfg/dest", Event.discoverPlugins "/velero/plugins",
        Event.newKubernetesRestorer defaultRestorePriorities]
      [Event.cleanupClients] (by decide)⟩

/-! ## C8 and C9: the parameters of the two engines -/

/-- C8: whatever namespace list `runBackup` is given, the parameters it
passes to the backup engine include exactly these namespaces, exclude
exactly `persistentvolumeclaims` and `persistentvolumes`, and switch the
built-in volume backup off (first part); when `runBackup` succeeds, the
descriptor it returns is the parameter object the engine was run with
(second part); and `Run` hands its own namespace list to `runBackup`, so
the same holds for the list `Run` is called with (third part). -/
theorem runBackup_export_params (env : BackupEnv) (fs : FS) (k p f : String)
    (namespaces : List String) :
    (∀ params f1, Event.backup params f1 ∈ (runBackup env fs k p f namespaces).2.1 →
      params.includedNamespaces = namespaces ∧
      params.excludedResources = ["persistentvolumeclaims", "persistentvolumes"] ∧
      params.defaultVolumesToRestic = some false ∧ f1 = f) ∧
    (∀ d, (runBackup env fs k p f namespaces).1 = Except.ok d →
      Event.backup d f ∈ (runBackup env fs k p f namespaces).2.1) ∧
    (∀ (pathDir : String → String) (renv : RunEnv) (src dst plug cache : String) params f1,
      Event.backup params f1 ∈ (Run pathDir renv fs src dst plug p cache namespaces).1 →
      params.includedNamespaces = namespaces ∧
      params.excludedResources = ["persistentvolumeclaims", "persistentvolumes"] ∧
      params.defaultVolumesToRestic = some false) := by
  refine ⟨?_, ?_, ?_⟩
  · intro params f1 h
    obtain ⟨h1, h2⟩ := runBackup_backup_event env fs k p f namespaces _ h params f1 rfl
    subst h1 h2
    exact ⟨rfl, rfl, rfl, rfl⟩
  · intro d h
    rw [(runBackup_ok env fs k p f namespaces d h).2]
    simp
  · intro pathDir renv src dst plug cache params f1 h
    have h1 := Run_backup_event pathDir renv fs src dst plug p cache namespaces _ h params f1 rfl
    subst h1
    exact ⟨rfl, rfl, rfl⟩

/-- For C8, a witness: the demo export of the namespace `webapp`, by
`runBackup` alone and inside the demo run. -/
theorem runBackup_export_params_witness :
    (demoBackup.includedNamespaces = ["webapp"] ∧
      demoBackup.excludedResources = ["persistentvolumeclaims", "persistentvolumes"] ∧
      demoBackup.defaultVolumesToRestic = some false ∧
      "/cache/backup-1.tar" = "/cache/backup-1.tar") ∧
    Event.backup demoBackup "/cache/backup-1.tar" ∈
      (runBackup backupOk fsDemo "/cfg/source" "/velero/plugins" "/cache/backup-1.tar"
        ["webapp"]).2.1 ∧
    Event.backup demoBackup "/cache/backup-1.tar" ∈ (runDemo envOk).1 ∧
    demoBackup.includedNamespaces = ["webapp"] ∧
    demoBackup.excludedResources = ["persistentvolumeclaims", "persistentvolumes"] ∧
    demoBackup.defaultVolumesToRestic = some false :=
  ⟨(runBackup_export_params backupOk fsDemo "/cfg/source" "/velero/plugins"
      "/cache/backup-1.tar" ["webapp"]).1 demoBackup "/cache/backup-1.tar" (by decide),
    (runBackup_export_params backupOk fsDemo "/cfg/source" "/velero/plugins"
      "/cache/backup-1.tar" ["webapp"]).2.1 demoBackup rfl,
    by decide,
    (runBackup_export_params backupOk fsDemo "/cfg/source" "/velero/plugins"
      "/cache/backup-1.tar" ["webapp"]).2.2 pathDirClean envOk "/cfg/source" "/cfg/dest"
      "/plugins/kubeconfig" "/cache" demoBackup "/cache/backup-1.tar" (by decide)⟩

/-- C9: whatever descriptor `runRestore` is given, the request it passes to
the restore engine excludes exactly `nodes`, `events` and
`events.events.k8s.io`, names the descriptor's name as the backup it
replays, has the restoration of persistent volumes switched off, and
carries the descriptor and the file to read. -/
theorem runRestore_replay_params (env : RestoreEnv) (k p f : String) (b : Backup)
    (req : RestoreRequest) (h : Event.restore req ∈ (runRestore env k p f b).2) :
    req.restore.excludedResources = ["nodes", "events", "events.events.k8s.io"] ∧
    req.restore.backupName = b.name ∧ req.restore.restorePVs = some false ∧
    req.backup = b ∧ req.backupReader = f := by
  obtain ⟨hreq, -⟩ := runRestore_restore env k p f b req h
  subst hreq
  exact ⟨rfl, rfl, rfl, rfl, rfl⟩

/-- For C9, a witness: the demo replay. -/
theorem runRestore_replay_params_witness :
    Event.restore demoRequest ∈
      (runRestore restoreOk "/cfg/dest" "/velero/plugins" "/cache/backup-1.tar"
        demoBackup).2 ∧
    demoRequest.restore.excludedResources = ["nodes", "events", "events.events.k8s.io"] ∧
    demoRequest.restore.backupName = demoBackup.name ∧
    demoRequest.restore.restorePVs = some false ∧
    demoRequest.backup = demoBackup ∧ demoRequest.backupReader = "/cache/backup-1.tar" :=
  ⟨by decide, runRestore_replay_params restoreOk "/cfg/dest" "/velero/plugins"
    "/cache/backup-1.tar" demoBackup demoRequest (by decide)⟩

/-! ## C10: the protocol on the Transfer Medium -/

/-- C10: in every run, whatever precedes the call of `runRestore` holds the
successful return of the export and the export's write to the medium, holds
no read of the medium, and ends with the seek to offset 0 (first part); a run
that calls `runRestore` seeks exactly once, to offset 0 (second part); and
when the replay engine reads the medium, the operations on the medium are,
in order, its creation, the export's write, the seek to offset 0 and, right
after it, the read, followed by no further seek, write or read (third
part). -/
theorem Run_medium_protocol (pathDir : String → String) (env : RunEnv) (fs : FS)
    (src dst plug plugins cache : String) (ns : List String) :
    (∀ pre post k p f b,
      (Run pathDir env fs src dst plug plugins cache ns).1 =
        pre ++ Event.runRestoreCall k p f b :: post →
      Event.runBackupRet true ∈ pre ∧ Event.backup b f ∈ pre ∧
        (∀ req, Event.restore req ∉ pre) ∧
        ∃ pre0, pre = pre0 ++ [Event.seek f 0 0 none]) ∧
    (∀ k p f b,
      Event.runRestoreCall k p f b ∈ (Run pathDir env fs src dst plug plugins cache ns).1 →
      (Run pathDir env fs src dst plug plugins cache ns).1.filter Event.isSeek =
        [Event.seek f 0 0 none]) ∧
    (∀ req, Event.restore req ∈ (Run pathDir env fs src dst plug plugins cache ns).1 →
      ∃ post,
        (Run pathDir env fs src dst plug plugins cache ns).1.filter Event.onMedium =
          Event.tempFile cache "backup-*.tar" req.backupReader ::
          Event.backup req.backup req.backupReader ::
          Event.seek req.backupReader 0 0 none :: Event.restore req :: post ∧
        ∀ a ∈ post, a.isPivot = false ∧ a.isPhaseStep = false) := by
  rcases Run_shape pathDir env fs src dst plug plugins cache ns with
    hno | ⟨name, b, head, tail, ht, hhead, hmed, htail, -⟩
  · have hnone : ∀ k p f b,
        Event.runRestoreCall k p f b ∉ (Run pathDir env fs src dst plug plugins cache ns).1 := by
      intro k p f b hmem
      have := (hno _ hmem).1
      simp [Event.isRunRestoreCall] at this
    refine ⟨?_, fun k p f b h => absurd h (hnone k p f b), ?_⟩
    · intro pre post k p f b h
      exact absurd (by rw [h]; simp) (hnone k p f b)
    · intro req hmem
      have := (hno _ hmem).2.2
      simp [Event.isRestore] at this
  · have hR := runRestore_steps env.restore dst plugins name b
    have hRr := runRestore_restore env.restore dst plugins name b
    generalize (runRestore env.restore dst plugins name b).2 = evR at ht hR hRr
    generalize (Run pathDir env fs src dst plug plugins cache ns).1 = t at ht
    subst ht
    have hheadP : ∀ a ∈ head, a.isPivot = false := fun a ha => (hhead a ha).1
    have htailP : ∀ a ∈ tail, a.isPivot = false := fun a ha => (htail a ha).1
    have hRP : ∀ a ∈ evR, a.isPivot = false := fun a ha => pivot_of_phaseStep a (hR a ha)
    have hheadM : ∀ req, Event.restore req ∉ head := by
      intro req hmem
      have : Event.restore req ∈ head.filter Event.onMedium :=
        List.mem_filter.mpr ⟨hmem, rfl⟩
      rw [hmed] at this
      simp at this
    refine ⟨?_, ?_, ?_⟩
    · intro pre post k p f b1 h
      have h2 : (head ++ [Event.backup b name, Event.cleanupClients, Event.runBackupRet true,
          Event.log Level.info "Run backup successfully against the source cluster" [] none,
          Event.copyKubeConfig dst plug none, Event.seek name 0 0 none]) ++
          Event.runRestoreCall dst plugins name b :: (evR ++ tail) =
          pre ++ Event.runRestoreCall k p f b1 :: post := by
        rw [← h]; simp
      have hA : ∀ a ∈ head ++ [Event.backup b name, Event.cleanupClients,
          Event.runBackupRet true,
          Event.log Level.info "Run backup successfully against the source cluster" [] none,
          Event.copyKubeConfig dst plug none, Event.seek name 0 0 none],
          a.isRunRestoreCall = false := by
        simp only [List.mem_append, List.mem_cons, List.mem_singleton, List.not_mem_nil,
          or_false, false_or, or_imp, forall_and, forall_eq, false_imp_iff, implies_true,
          true_and, and_true]
        repeat' apply And.intro
        all_goals first | rfl | exact fun a ha => call_of_not_pivot a (hheadP a ha)
      have hB : ∀ a ∈ evR ++ tail, a.isRunRestoreCall = false := by
        intro a ha
        rcases List.mem_append.mp ha with ha | ha
        · exact call_of_not_pivot a (hRP a ha)
        · exact call_of_not_pivot a (htailP a ha)
      obtain ⟨hpre, hy, -⟩ := split_unique Event.isRunRestoreCall _ _ _ _ _ _ hA hB
        (show (Event.runRestoreCall k p f b1).isRunRestoreCall = true from rfl) h2
      simp only [Event.runRestoreCall.injEq] at hy
      obtain ⟨-, -, hf, hb⟩ := hy
      subst hf hb hpre
      refine ⟨by simp, by simp, ?_, ⟨head ++ [Event.backup b1 f, Event.cleanupClients,
          Event.runBackupRet true,
          Event.log Level.info "Run backup successfully against the source cluster" [] none,
          Event.copyKubeConfig dst plug none], by simp⟩⟩
      intro req hmem
      simp only [List.mem_append, List.mem_cons, List.mem_singleton, List.not_mem_nil,
        or_false, false_or, reduceCtorEq] at hmem
      exact hheadM req hmem
    · intro k p f b1 hmem
      have hf : f = name := by
        simp only [List.mem_append, List.mem_cons, List.mem_singleton, List.not_mem_nil,
          or_false, false_or, reduceCtorEq, Event.runRestoreCall.injEq] at hmem
        rcases hmem with ((hm | hm) | hm) | hm
        · exact absurd (hheadP _ hm) (by simp [Event.isPivot])
        · exact hm.2.2.1
        · exact absurd (hRP _ hm) (by simp [Event.isPivot])
        · exact absurd (htailP _ hm) (by simp [Event.isPivot])
      subst hf
      rw [List.filter_append, List.filter_append, List.filter_append,
        filter_nil_of_forall _ head (fun a ha => seek_of_not_pivot a (hheadP a ha)),
        filter_nil_of_forall _ evR (fun a ha => seek_of_not_pivot a (hRP a ha)),
        filter_nil_of_forall _ tail (fun a ha => seek_of_not_pivot a (htailP a ha))]
      rfl
    · intro req hmem
      have hev : Event.restore req ∈ evR := by
        simp only [List.mem_append, List.mem_cons, List.mem_singleton, List.not_mem_nil,
          or_false, false_or, reduceCtorEq] at hmem
        rcases hmem with (hm | hm) | hm
        · exact absurd hm (hheadM req)
        · exact hm
        · exact absurd (htail _ hm).2 (by simp [Event.isPhaseStep])
      obtain ⟨hreq, hevR⟩ := hRr req hev
      refine ⟨tail.filter Event.onMedium, ?_, ?_⟩
      · rw [List.filter_append, List.filter_append, List.filter_append, hmed, hevR, hreq]
        rfl
      · intro a ha
        exact htail a (List.mem_filter.mp ha).1

/-- For C10, a witness: in the demo run without failures the operations on
the medium are its creation, the export's write, one seek to offset 0, the
replay's read, and then its removal and its close. -/
theorem Run_medium_protocol_witness :
    (runDemo envOk).1.filter Event.isSeek = [Event.seek "/cache/backup-1.tar" 0 0 none] ∧
    ∃ post, (runDemo envOk).1.filter Event.onMedium =
      Event.tempFile "/cache" "backup-*.tar" demoRequest.backupReader ::
      Event.backup demoRequest.backup demoRequest.backupReader ::
      Event.seek demoRequest.backupReader 0 0 none :: Event.restore demoRequest :: post ∧
      ∀ a ∈ post, a.isPivot = false ∧ a.isPhaseStep = false :=
  ⟨(Run_medium_protocol pathDirClean envOk fsDemo "/cfg/source" "/cfg/dest"
      "/plugins/kubeconfig" "/velero/plugins" "/cache" ["webapp"]).2.1
      "/cfg/dest" "/velero/plugins" "/cache/backup-1.tar" demoBackup (by decide),
    (Run_medium_protocol pathDirClean envOk fsDemo "/cfg/source" "/cfg/dest"
      "/plugins/kubeconfig" "/velero/plugins" "/cache" ["webapp"]).2.2
      demoRequest (by decide)⟩

end Migrator
